import Mathlib

/-!
Verification development for the Sentinel-Fusion-Sim target detection core.

The embedding below follows src/TargetDetectionSystem/src/TargetDetector.cpp
(the translation unit that matches include/TargetDetector.h and is the one the
build tree compiles).  The repository also carries older drafts of the same
file; where a drafted behaviour differs from the compiled translation unit,
the compiled one is embedded.

Modelling conventions:
- C++ double is modelled as the exact rational type.  Literals such as 0.1
  denote the exact rational 1/10.
- Calls to std::sqrt are modelled by an explicit square-root parameter sq of
  type rational to rational.  Concrete witnesses instantiate sq with ratSqrt,
  a computable function that agrees with the real square root on perfect
  squares (every concrete input used below only takes square roots of perfect
  squares, where IEEE sqrt is also exact).
- The parallel for_each loops of the source serialise every shared-state
  mutation through a mutex; the embedding processes the batch sequentially in
  batch order, which is one of the admitted interleavings.
- Wall-clock quantities (the measured processing time, the system_clock now)
  are passed as explicit parameters.
- std::unordered_map is modelled as an association list with lookup by key,
  insert-or-overwrite update, and size equal to the number of stored keys.
-/

namespace SFS

/-- Sensing modality of a target, mirroring enum class TargetType. -/
inductive TargetType where
  | RADAR
  | THERMAL
  | OPTICAL
  | FUSED
deriving DecidableEq, Repr

/-- Threat classification, mirroring enum class ThreatLevel. -/
inductive ThreatLevel where
  | LOW
  | MEDIUM
  | HIGH
  | CRITICAL
deriving DecidableEq, Repr

/-- Sensor health state, mirroring enum class SensorStatus. -/
inductive SensorStatus where
  | ACTIVE
  | INACTIVE
  | MAINTENANCE
  | ERROR
deriving DecidableEq, Repr

/-- Underlying integer of a ThreatLevel value (the uint8 enum value used by
the comparisons in the source). -/
def threatNum : ThreatLevel → Nat
  | .LOW => 0
  | .MEDIUM => 1
  | .HIGH => 2
  | .CRITICAL => 3

/-- The Target record of TargetDetector.h.  detection_time is the
system_clock time point, modelled as a rational number of seconds. -/
structure Target where
  id : Int
  x : ℚ
  y : ℚ
  z : ℚ
  velocity : ℚ
  size : ℚ
  confidence : ℚ
  type : TargetType
  threat_level : ThreatLevel
  detection_time : ℚ
  description : String
deriving DecidableEq, Repr

/-- The DetectionMetrics record of TargetDetector.h. -/
structure DetectionMetrics where
  processing_time_ms : ℚ
  targets_detected : Nat
  average_confidence : ℚ
  false_positives : Nat
  missed_targets : Nat
deriving DecidableEq, Repr

/-- The state of a TargetDetector instance.  Fields that no claim touches
(the detected_targets result list, the memory pool, the mutex itself) are
omitted; target_history is the unordered_map from id to last snapshot. -/
structure TargetDetector where
  target_history : List (Int × Target)
  next_target_id : Int
  fusion_threshold : ℚ
  noise_threshold : ℚ
  radar_status : SensorStatus
  thermal_status : SensorStatus
  optical_status : SensorStatus
  last_metrics : DetectionMetrics
deriving DecidableEq, Repr

/-- The TargetDetector constructor: id counter starts at 1, all sensors
active, metrics value-initialised to zeroes. -/
def initDetector (fusion_thresh noise_thresh : ℚ) : TargetDetector where
  target_history := []
  next_target_id := 1
  fusion_threshold := fusion_thresh
  noise_threshold := noise_thresh
  radar_status := .ACTIVE
  thermal_status := .ACTIVE
  optical_status := .ACTIVE
  last_metrics := ⟨0, 0, 0, 0, 0⟩

/-- TargetDetector::isValidTarget: confidence strictly above the noise
threshold and size strictly above 0.1. -/
def isValidTarget (noise_threshold : ℚ) (t : Target) : Bool :=
  decide (noise_threshold < t.confidence) && decide ((0.1 : ℚ) < t.size)

/-- TargetDetector::calculateThreatLevel. -/
def calculateThreatLevel (t : Target) : ThreatLevel :=
  if (100 : ℚ) < t.velocity ∨ (0.9 : ℚ) < t.confidence then .CRITICAL
  else if (50 : ℚ) < t.velocity ∨ (0.7 : ℚ) < t.confidence then .HIGH
  else if (20 : ℚ) < t.velocity ∨ (0.5 : ℚ) < t.confidence then .MEDIUM
  else .LOW

/-- TargetDetector::filterNoise: the erase-remove idiom keeps, in order,
exactly the targets satisfying isValidTarget. -/
def filterNoise (noise_threshold : ℚ) (targets : List Target) : List Target :=
  targets.filter (isValidTarget noise_threshold)

/-- Radar extraction of one raw reading (the loop body of
detectRadarTargets): needs at least 4 fields, accepts when the signal
strength exceeds the noise threshold, and keeps the candidate only when
isValidTarget passes.  The id is the placeholder 0 until assignment. -/
def radarCandidate (sq : ℚ → ℚ) (noise_threshold : ℚ) (reading : List ℚ) :
    Option Target :=
  match reading with
  | x :: y :: z :: signal_strength :: _ =>
    if noise_threshold < signal_strength then
      let distance := sq (x * x + y * y)
      let t : Target :=
        { id := 0, x := x, y := y, z := z
          velocity := distance * 0.1
          size := signal_strength * 2.0
          confidence := min (signal_strength * 1.5) 1.0
          type := .RADAR, threat_level := .LOW
          detection_time := 0, description := "Radar detection" }
      let t := { t with threat_level := calculateThreatLevel t }
      if isValidTarget noise_threshold t then some t else none
    else none
  | _ => none

/-- Thermal extraction of one raw reading (the loop body of
detectThermalTargets). -/
def thermalCandidate (sq : ℚ → ℚ) (noise_threshold : ℚ) (reading : List ℚ) :
    Option Target :=
  match reading with
  | x :: y :: z :: temperature :: _ =>
    if (25.0 : ℚ) < temperature then
      let distance := sq (x * x + y * y)
      let temp_diff := temperature - 20.0
      let t : Target :=
        { id := 0, x := x, y := y, z := z
          velocity := distance * 0.05
          size := max (temp_diff * 0.3) 0.5
          confidence := min (temp_diff / 20.0) 1.0
          type := .THERMAL, threat_level := .LOW
          detection_time := 0, description := "Thermal detection" }
      let t := { t with threat_level := calculateThreatLevel t }
      if isValidTarget noise_threshold t then some t else none
    else none
  | _ => none

/-- Optical extraction of one raw reading (the loop body of
detectOpticalTargets): needs at least 5 fields. -/
def opticalCandidate (sq : ℚ → ℚ) (noise_threshold : ℚ) (reading : List ℚ) :
    Option Target :=
  match reading with
  | x :: y :: z :: brightness :: contrast :: _ =>
    let optical_confidence := brightness * contrast
    if (0.2 : ℚ) < optical_confidence then
      let distance := sq (x * x + y * y)
      let t : Target :=
        { id := 0, x := x, y := y, z := z
          velocity := distance * 0.08
          size := brightness * 3.0
          confidence := min (optical_confidence * 2.0) 1.0
          type := .OPTICAL, threat_level := .LOW
          detection_time := 0, description := "Optical detection" }
      let t := { t with threat_level := calculateThreatLevel t }
      if isValidTarget noise_threshold t then some t else none
    else none
  | _ => none

/-- One step of the extraction fold: an accepted candidate receives the next
monotonic id (the fetch_add under the lock) and is appended. -/
def detectStep (cand : List ℚ → Option Target)
    (acc : List Target × Int) (reading : List ℚ) : List Target × Int :=
  match cand reading with
  | some t => (acc.1 ++ [{ t with id := acc.2 }], acc.2 + 1)
  | none => acc

/-- Mean confidence of a produced batch, 0 for an empty batch (the ternary in
the metrics update of the source). -/
def averageConfidence (ts : List Target) : ℚ :=
  if ts = [] then 0
  else (ts.foldl (fun s t => s + t.confidence) 0) / (ts.length : ℚ)

/-- TargetDetector::detectRadarTargets.  The early return on an empty batch
or a non-active sensor leaves the whole state, metrics included, untouched.
elapsed_ms is the measured wall-clock duration of the call. -/
def detectRadarTargets (sq : ℚ → ℚ) (st : TargetDetector)
    (radar_data : List (List ℚ)) (elapsed_ms : ℚ) :
    List Target × TargetDetector :=
  if radar_data = [] ∨ st.radar_status ≠ .ACTIVE then ([], st)
  else
    let r := radar_data.foldl (detectStep (radarCandidate sq st.noise_threshold))
      ([], st.next_target_id)
    (r.1, { st with
      next_target_id := r.2
      last_metrics :=
        { processing_time_ms := elapsed_ms
          targets_detected := r.1.length
          average_confidence := averageConfidence r.1
          false_positives := 0, missed_targets := 0 } })

/-- TargetDetector::detectThermalTargets. -/
def detectThermalTargets (sq : ℚ → ℚ) (st : TargetDetector)
    (thermal_data : List (List ℚ)) (elapsed_ms : ℚ) :
    List Target × TargetDetector :=
  if thermal_data = [] ∨ st.thermal_status ≠ .ACTIVE then ([], st)
  else
    let r := thermal_data.foldl (detectStep (thermalCandidate sq st.noise_threshold))
      ([], st.next_target_id)
    (r.1, { st with
      next_target_id := r.2
      last_metrics :=
        { processing_time_ms := elapsed_ms
          targets_detected := r.1.length
          average_confidence := averageConfidence r.1
          false_positives := 0, missed_targets := 0 } })

/-- TargetDetector::detectOpticalTargets. -/
def detectOpticalTargets (sq : ℚ → ℚ) (st : TargetDetector)
    (optical_data : List (List ℚ)) (elapsed_ms : ℚ) :
    List Target × TargetDetector :=
  if optical_data = [] ∨ st.optical_status ≠ .ACTIVE then ([], st)
  else
    let r := optical_data.foldl (detectStep (opticalCandidate sq st.noise_threshold))
      ([], st.next_target_id)
    (r.1, { st with
      next_target_id := r.2
      last_metrics :=
        { processing_time_ms := elapsed_ms
          targets_detected := r.1.length
          average_confidence := averageConfidence r.1
          false_positives := 0, missed_targets := 0 } })

/-- TargetDetector::setSensorStatus. -/
def setSensorStatus (st : TargetDetector) (type : TargetType)
    (status : SensorStatus) : TargetDetector :=
  match type with
  | .RADAR => { st with radar_status := status }
  | .THERMAL => { st with thermal_status := status }
  | .OPTICAL => { st with optical_status := status }
  | .FUSED => st

/-- TargetDetector::setFusionThreshold of the compiled translation unit:
stores the value unconditionally. -/
def setFusionThreshold (st : TargetDetector) (threshold : ℚ) : TargetDetector :=
  { st with fusion_threshold := threshold }

/-- TargetDetector::setNoiseThreshold of the compiled translation unit:
stores the value unconditionally. -/
def setNoiseThreshold (st : TargetDetector) (threshold : ℚ) : TargetDetector :=
  { st with noise_threshold := threshold }

/-- TargetDetector::getFusionThreshold. -/
def getFusionThreshold (st : TargetDetector) : ℚ :=
  st.fusion_threshold

/-- TargetDetector::getNoiseThreshold. -/
def getNoiseThreshold (st : TargetDetector) : ℚ :=
  st.noise_threshold

/-- TargetDetector::getLastDetectionMetrics (the optional always holds the
stored record). -/
def getLastDetectionMetrics (st : TargetDetector) : DetectionMetrics :=
  st.last_metrics

/-- Squared Euclidean distance between two targets (the dx*dx + dy*dy + dz*dz
computed inside TargetDetector::calculateDistance before the sqrt call). -/
def distSq (t1 t2 : Target) : ℚ :=
  (t1.x - t2.x) * (t1.x - t2.x) + (t1.y - t2.y) * (t1.y - t2.y) +
    (t1.z - t2.z) * (t1.z - t2.z)

/-- TargetDetector::calculateDistance: the square root of the squared
distance, with the square-root routine passed explicitly. -/
def calculateDistance (sq : ℚ → ℚ) (t1 t2 : Target) : ℚ :=
  sq (distSq t1 t2)

/-- std::max on ThreatLevel values through the underlying uint8 order:
max(a, b) is b when a < b and a otherwise. -/
def maxThreat (a b : ThreatLevel) : ThreatLevel :=
  if threatNum a < threatNum b then b else a

/-- Conversion of a signed integer to uint64, as in static_cast of the cell
index: reduction modulo 2 to the 64. -/
def toU64 (z : Int) : Nat :=
  (z % (2 ^ 64 : Int)).toNat

/-- Floor of a rational (std::floor applied to the quotient): floor division
of the numerator by the positive denominator. -/
def ratFloor (q : ℚ) : Int :=
  Int.fdiv q.num (q.den : Int)

/-- The grid-key lambda get_grid_hash of fuseSensors: per-axis floor of the
coordinate over the cell size, each cast to uint64, packed by shifts of 42
and 21 bits and bitwise or (all uint64 arithmetic, modulo 2 to the 64). -/
def getGridHash (grid_size x y z : ℚ) : Nat :=
  let gx := ratFloor (x / grid_size)
  let gy := ratFloor (y / grid_size)
  let gz := ratFloor (z / grid_size)
  ((toU64 gx * 2 ^ 42) % 2 ^ 64) ||| ((toU64 gy * 2 ^ 21) % 2 ^ 64) ||| toU64 gz

/-- Key of a neighbouring grid cell: the source writes
hash + (dx shifted by 42) + (dy shifted by 21) + dz on uint64.  The shifts of
the int offsets by 42 and 21 are taken at their intended mathematical value
(dx times 2 to the 42, and so on), and the sum wraps modulo 2 to the 64 as
the uint64 addition does. -/
def neighborKey (hash : Nat) (dx dy dz : Int) : Nat :=
  (((hash : Int) + dx * 2 ^ 42 + dy * 2 ^ 21 + dz) % (2 ^ 64 : Int)).toNat

/-- The 27 cell offsets of the three nested loops, in loop order: dx
outermost, then dy, then dz, each from -1 to 1. -/
def neighborOffsets : List (Int × Int × Int) :=
  ([-1, 0, 1] : List Int).flatMap fun dx =>
    ([-1, 0, 1] : List Int).flatMap fun dy =>
      ([-1, 0, 1] : List Int).map fun dz => (dx, dy, dz)

/-- The spatial hash grid: association list from packed cell key to the list
of indices into the fused output, in insertion order. -/
abbrev SpatialHash := List (Nat × List Nat)

/-- Bucket of a key (empty when the key is absent). -/
def gridFind : SpatialHash → Nat → List Nat
  | [], _ => []
  | (k, v) :: rest, key => if k = key then v else gridFind rest key

/-- push_back of an index onto the bucket of a key, creating the bucket when
absent (operator square-brackets of unordered_map). -/
def gridInsert : SpatialHash → Nat → Nat → SpatialHash
  | [], key, idx => [(key, [idx])]
  | (k, v) :: rest, key, idx =>
    if k = key then (k, v ++ [idx]) :: rest else (k, v) :: gridInsert rest key idx

/-- All fused-set indices reachable by the 3x3x3 neighbourhood scan around a
cell key, in scan order. -/
def scanCandidates (grid : SpatialHash) (hash : Nat) : List Nat :=
  neighborOffsets.flatMap fun o => gridFind grid (neighborKey hash o.1 o.2.1 o.2.2)

/-- First scanned index whose target is radar-typed and within the fusion
threshold of the thermal candidate (the match condition of the thermal loop;
the goto stops at the first hit). -/
def findThermalMergeIdx (sq : ℚ → ℚ) (thr : ℚ) (fused : List Target)
    (cands : List Nat) (thermal : Target) : Option Nat :=
  cands.find? fun i =>
    match fused[i]? with
    | some radar =>
      decide (radar.type = .RADAR) && decide (calculateDistance sq radar thermal < thr)
    | none => false

/-- First scanned index whose target is within the fusion threshold of the
optical candidate (the optical loop has no type restriction). -/
def findOpticalMergeIdx (sq : ℚ → ℚ) (thr : ℚ) (fused : List Target)
    (cands : List Nat) (optical : Target) : Option Nat :=
  cands.find? fun i =>
    match fused[i]? with
    | some tgt => decide (calculateDistance sq tgt optical < thr)
    | none => false

/-- In-place update of the element at one index (the write through the
vector reference fused_targets at idx); out-of-range indices change
nothing. -/
def modifyIdx (f : Target → Target) : Nat → List Target → List Target
  | _, [] => []
  | 0, t :: rest => f t :: rest
  | n + 1, t :: rest => t :: modifyIdx f n rest

/-- In-place mutation of the matched radar target by a thermal merge. -/
def mergeThermal (radar thermal : Target) : Target :=
  { radar with
    confidence := min 0.9 (radar.confidence + thermal.confidence * 0.3)
    threat_level := maxThreat radar.threat_level thermal.threat_level
    type := .FUSED
    description := radar.description ++ " + Thermal" }

/-- In-place mutation of the matched target by an optical merge: the type
promotion and description suffix happen only when not already FUSED. -/
def mergeOptical (tgt optical : Target) : Target :=
  let tgt := { tgt with
    confidence := min 0.95 (tgt.confidence + optical.confidence * 0.2)
    threat_level := maxThreat tgt.threat_level optical.threat_level }
  if tgt.type ≠ .FUSED then
    { tgt with type := .FUSED, description := tgt.description ++ " + Optical" }
  else tgt

/-- Base-phase step of fuseSensors for one radar target: a valid target is
appended to the output and indexed in the grid. -/
def fuseRadarStep (noise thr : ℚ) (acc : List Target × SpatialHash)
    (t : Target) : List Target × SpatialHash :=
  if isValidTarget noise t then
    (acc.1 ++ [t], gridInsert acc.2 (getGridHash thr t.x t.y t.z) acc.1.length)
  else acc

/-- Base phase of fuseSensors: every valid radar target is appended to the
output and indexed in the grid. -/
def fuseRadarPhase (noise thr : ℚ) (radar_targets : List Target) :
    List Target × SpatialHash :=
  radar_targets.foldl (fuseRadarStep noise thr) ([], [])

/-- Thermal phase step of fuseSensors for one thermal candidate. -/
def fuseThermalStep (sq : ℚ → ℚ) (thr noise : ℚ)
    (acc : List Target × SpatialHash) (thermal : Target) :
    List Target × SpatialHash :=
  if isValidTarget noise thermal then
    let hash := getGridHash thr thermal.x thermal.y thermal.z
    match findThermalMergeIdx sq thr acc.1 (scanCandidates acc.2 hash) thermal with
    | some i => (modifyIdx (fun r => mergeThermal r thermal) i acc.1, acc.2)
    | none => (acc.1 ++ [thermal], gridInsert acc.2 hash acc.1.length)
  else acc

/-- Optical phase step of fuseSensors for one optical candidate. -/
def fuseOpticalStep (sq : ℚ → ℚ) (thr noise : ℚ)
    (acc : List Target × SpatialHash) (optical : Target) :
    List Target × SpatialHash :=
  if isValidTarget noise optical then
    let hash := getGridHash thr optical.x optical.y optical.z
    match findOpticalMergeIdx sq thr acc.1 (scanCandidates acc.2 hash) optical with
    | some i => (modifyIdx (fun t => mergeOptical t optical) i acc.1, acc.2)
    | none => (acc.1 ++ [optical], gridInsert acc.2 hash acc.1.length)
  else acc

/-- TargetDetector::fuseSensors: radar base phase, then the thermal loop,
then the optical loop; the grid cell size is the fusion threshold. -/
def fuseSensors (sq : ℚ → ℚ) (st : TargetDetector)
    (radar_targets thermal_targets optical_targets : List Target) : List Target :=
  let a := fuseRadarPhase st.noise_threshold st.fusion_threshold radar_targets
  let b := thermal_targets.foldl
    (fuseThermalStep sq st.fusion_threshold st.noise_threshold) a
  let c := optical_targets.foldl
    (fuseOpticalStep sq st.fusion_threshold st.noise_threshold) b
  c.1

/-- Lookup in the history table (unordered_map find by id). -/
def lookupHistory : List (Int × Target) → Int → Option Target
  | [], _ => none
  | (k, v) :: rest, key => if k = key then some v else lookupHistory rest key

/-- Insert-or-overwrite into the history table (operator square-brackets
assignment of unordered_map). -/
def insertHistory : List (Int × Target) → Int → Target → List (Int × Target)
  | [], key, v => [(key, v)]
  | (k, w) :: rest, key, v =>
    if k = key then (key, v) :: rest else (k, w) :: insertHistory rest key v

/-- The velocity part of one iteration of the TargetDetector::trackTargets
loop: when the id is found in the history, the elapsed time dt is the
difference of detection timestamps (current minus stored snapshot), and only
a strictly positive dt triggers the velocity recomputation from the
positional delta. -/
def trackOne (sq : ℚ → ℚ) (hist : List (Int × Target)) (t : Target) : Target :=
  match lookupHistory hist t.id with
  | some old =>
    let dt := t.detection_time - old.detection_time
    if 0 < dt then
      { t with velocity := sq ((t.x - old.x) * (t.x - old.x) +
          (t.y - old.y) * (t.y - old.y) + (t.z - old.z) * (t.z - old.z)) / dt }
    else t
  | none => t

/-- The per-target loop of TargetDetector::trackTargets, threading the
history table: after the velocity update the timestamp is refreshed to now
and the snapshot stored under the target id. -/
def trackGo (sq : ℚ → ℚ) (now : ℚ) :
    List (Int × Target) → List Target → List Target × List (Int × Target)
  | hist, [] => ([], hist)
  | hist, t :: rest =>
    let t2 := { trackOne sq hist t with detection_time := now }
    let r := trackGo sq now (insertHistory hist t2.id t2) rest
    (t2 :: r.1, r.2)

/-- TargetDetector::trackTargets of the compiled translation unit.  The
time_delta parameter is accepted but never read by the body; an empty batch
returns immediately.  No capacity eviction of the history table occurs. -/
def trackTargets (sq : ℚ → ℚ) (st : TargetDetector) (current_targets : List Target)
    (time_delta : ℚ) (now : ℚ) : List Target × TargetDetector :=
  if current_targets = [] then (current_targets, st)
  else
    ((trackGo sq now st.target_history current_targets).1,
      { st with target_history := (trackGo sq now st.target_history current_targets).2 })

/-- The std::sort comparator of prioritizeTargets: a precedes b when its
threat level is strictly higher, or, at equal threat levels, when its
confidence is strictly higher. -/
def priorityComp (a b : Target) : Bool :=
  if a.threat_level ≠ b.threat_level then
    decide (threatNum b.threat_level < threatNum a.threat_level)
  else decide (b.confidence < a.confidence)

/-- The non-strict order induced by the comparator: a may stay before b
exactly when the comparator does not demand b before a. -/
def priorityLe (a b : Target) : Bool :=
  ! priorityComp b a

/-- TargetDetector::prioritizeTargets of the compiled translation unit.
std::sort produces some comparator-consistent permutation and leaves every
record otherwise untouched (no threat recomputation follows the sort); the
embedding fixes the permutation to the one merge sort produces over the
induced total preorder. -/
def prioritizeTargets (targets : List Target) : List Target :=
  targets.mergeSort priorityLe

/-- Kernel-friendly integer square root used only to instantiate the sq
parameter at concrete witnesses: largest k at most the fuel with k * k at
most n, by downward search. -/
def isqrtDown : Nat → Nat → Nat
  | 0, _ => 0
  | k + 1, n => if (k + 1) * (k + 1) ≤ n then k + 1 else isqrtDown k n

/-- Integer square root with self fuel: exact on perfect squares. -/
def isqrt (n : Nat) : Nat :=
  isqrtDown n n

/-- Sample square-root routine for concrete witnesses: exact on every
rational that is the square of a rational (in lowest terms both numerator
and denominator are then perfect squares), and 0 on negatives. -/
def ratSqrt (q : ℚ) : ℚ :=
  (isqrt q.num.toNat : ℚ) / (isqrt q.den : ℚ)

/-- Confidence within the closed unit interval, the invariant of claim C8. -/
def confInUnit (t : Target) : Prop :=
  0 ≤ t.confidence ∧ t.confidence ≤ 1

/-- Decidable form of the staleness condition of one target against a
history table: either its id is absent, or its detection timestamp does not
exceed the stored snapshot timestamp. -/
def staleAgainst (hist : List (Int × Target)) (t : Target) : Bool :=
  match lookupHistory hist t.id with
  | some old => decide (t.detection_time - old.detection_time ≤ 0)
  | none => true

/-- Batch of n pairwise-distinct-id targets used by the history-growth
counterexample. -/
def mkManyTargets (n : Nat) : List Target :=
  (List.range n).map fun (k : Nat) =>
    ⟨(k : Int), 0, 0, 0, 0, 1, 1, .RADAR, .LOW, 0, ""⟩

/-- Detector with the default construction arguments (fusion threshold 5,
noise threshold 0.3), used by the concrete inputs below. -/
def detDefault : TargetDetector :=
  initDetector 5 (3 / 10)

/-- Concrete candidate accepted by the claimed validity predicate
(confidence above the noise threshold, non-negative velocity, finite
coordinates) but rejected by the implemented one because of its size. -/
def tTinySize : Target :=
  ⟨0, 0, 0, 0, 5, 1 / 20, 9 / 10, .RADAR, .LOW, 0, ""⟩

/-- Concrete candidate with negative velocity accepted by the implemented
validity predicate. -/
def tNegVel : Target :=
  ⟨0, 0, 0, 0, -5, 1, 9 / 10, .RADAR, .LOW, 0, ""⟩

/-- Concrete radar target produced by detDefault from the raw reading
(0, 0, 0, 0.9) under ratSqrt: velocity 0, size 1.8, clamped confidence 1,
critical threat, id 1. -/
def tRadarDet : Target :=
  ⟨1, 0, 0, 0, 0, 9 / 5, 1, .RADAR, .CRITICAL, 0, "Radar detection"⟩

/-- First thermal candidate of the fusion counterexample, at the origin. -/
def thA : Target :=
  ⟨10, 0, 0, 0, 0, 1, 6 / 10, .THERMAL, .LOW, 0, ""⟩

/-- Second thermal candidate of the fusion counterexample, one unit away
from thA, well inside the fusion threshold 5. -/
def thB : Target :=
  ⟨11, 1, 0, 0, 0, 1, 6 / 10, .THERMAL, .LOW, 0, ""⟩

/-- History snapshot of id 1 at the origin with timestamp 0. -/
def oldSnap : Target :=
  ⟨1, 0, 0, 0, 0, 1, 1 / 2, .RADAR, .LOW, 0, ""⟩

/-- Current observation of id 1 at (3,4,0) with timestamp 1 and stored
velocity 7. -/
def curObs : Target :=
  ⟨1, 3, 4, 0, 7, 1, 1 / 2, .RADAR, .LOW, 1, ""⟩

/-- Detector whose history already holds the id 1 snapshot. -/
def detWithHist : TargetDetector :=
  { detDefault with target_history := [(1, oldSnap)] }

/-- Current observation of id 1 whose timestamp does not exceed the stored
snapshot timestamp. -/
def curObsStale : Target :=
  ⟨1, 3, 4, 0, 7, 1, 1 / 2, .RADAR, .LOW, 0, ""⟩

/-- Target whose stored threat level (LOW) disagrees with the threat
function value at its velocity 200 (CRITICAL). -/
def tStaleThreat : Target :=
  ⟨1, 0, 0, 0, 200, 1, 0, .RADAR, .LOW, 0, ""⟩

/-- Second target for the prioritizer witness: high threat, low id. -/
def tPrioA : Target :=
  ⟨2, 0, 0, 0, 0, 1, 2 / 10, .RADAR, .HIGH, 0, ""⟩

/-- Third target for the prioritizer witness: low threat. -/
def tPrioB : Target :=
  ⟨3, 0, 0, 0, 0, 1, 8 / 10, .RADAR, .LOW, 0, ""⟩

/-- Radar base target of the fusion witness (Scenario B of the spec). -/
def rScenB : Target :=
  ⟨1, 0, 0, 0, 0, 1, 8 / 10, .RADAR, .LOW, 0, "Radar detection"⟩

/-- Thermal candidate of the fusion witness, two units from rScenB. -/
def tScenB : Target :=
  ⟨2, 2, 0, 0, 0, 1, 6 / 10, .THERMAL, .LOW, 0, "Thermal detection"⟩

lemma mem_foldl_detectStep (cand : List ℚ → Option Target) (data : List (List ℚ)) :
    ∀ acc : List Target × Int, ∀ t ∈ (data.foldl (detectStep cand) acc).1,
      t ∈ acc.1 ∨ ∃ reading t0 n, cand reading = some t0 ∧ t = { t0 with id := n } := by
  induction data with
  | nil => intro acc t ht; exact Or.inl ht
  | cons r ds ih =>
    intro acc t ht
    rcases ih (detectStep cand acc r) t ht with h | h
    · cases hc : cand r with
      | none =>
        rw [detectStep, hc] at h
        exact Or.inl h
      | some t0 =>
        rw [detectStep, hc] at h
        rcases List.mem_append.mp h with h1 | h1
        · exact Or.inl h1
        · rcases List.mem_singleton.mp h1 with rfl
          exact Or.inr ⟨r, t0, acc.2, hc, rfl⟩
    · exact Or.inr h

lemma isValidTarget_id_update (noise : ℚ) (t : Target) (n : Int) :
    isValidTarget noise { t with id := n } = isValidTarget noise t := rfl

lemma radarCandidate_valid (sq : ℚ → ℚ) (noise : ℚ) (r : List ℚ) (t : Target)
    (h : radarCandidate sq noise r = some t) : isValidTarget noise t = true := by
  rcases r with _ | ⟨x, _ | ⟨y, _ | ⟨z, _ | ⟨s, rest⟩⟩⟩⟩ <;>
    simp only [radarCandidate] at h
  · exact Option.noConfusion h
  · exact Option.noConfusion h
  · exact Option.noConfusion h
  · exact Option.noConfusion h
  · split_ifs at h with h1 h2
    rcases Option.some.inj h with rfl
    exact h2

lemma thermalCandidate_valid (sq : ℚ → ℚ) (noise : ℚ) (r : List ℚ) (t : Target)
    (h : thermalCandidate sq noise r = some t) : isValidTarget noise t = true := by
  rcases r with _ | ⟨x, _ | ⟨y, _ | ⟨z, _ | ⟨s, rest⟩⟩⟩⟩ <;>
    simp only [thermalCandidate] at h
  · exact Option.noConfusion h
  · exact Option.noConfusion h
  · exact Option.noConfusion h
  · exact Option.noConfusion h
  · split_ifs at h with h1 h2
    rcases Option.some.inj h with rfl
    exact h2

lemma opticalCandidate_valid (sq : ℚ → ℚ) (noise : ℚ) (r : List ℚ) (t : Target)
    (h : opticalCandidate sq noise r = some t) : isValidTarget noise t = true := by
  rcases r with _ | ⟨x, _ | ⟨y, _ | ⟨z, _ | ⟨b, _ | ⟨c, rest⟩⟩⟩⟩⟩ <;>
    simp only [opticalCandidate] at h
  · exact Option.noConfusion h
  · exact Option.noConfusion h
  · exact Option.noConfusion h
  · exact Option.noConfusion h
  · exact Option.noConfusion h
  · split_ifs at h with h1 h2
    rcases Option.some.inj h with rfl
    exact h2

lemma detectRadarTargets_mem_valid (sq : ℚ → ℚ) (st : TargetDetector)
    (data : List (List ℚ)) (e : ℚ) (t : Target)
    (ht : t ∈ (detectRadarTargets sq st data e).1) :
    isValidTarget st.noise_threshold t = true := by
  rw [detectRadarTargets] at ht
  split_ifs at ht with h
  · simp at ht
  · rcases mem_foldl_detectStep _ data _ t ht with h1 | ⟨r, t0, n, hc, rfl⟩
    · simp at h1
    · rw [isValidTarget_id_update]
      exact radarCandidate_valid sq _ r t0 hc

lemma detectThermalTargets_mem_valid (sq : ℚ → ℚ) (st : TargetDetector)
    (data : List (List ℚ)) (e : ℚ) (t : Target)
    (ht : t ∈ (detectThermalTargets sq st data e).1) :
    isValidTarget st.noise_threshold t = true := by
  rw [detectThermalTargets] at ht
  split_ifs at ht with h
  · simp at ht
  · rcases mem_foldl_detectStep _ data _ t ht with h1 | ⟨r, t0, n, hc, rfl⟩
    · simp at h1
    · rw [isValidTarget_id_update]
      exact thermalCandidate_valid sq _ r t0 hc

lemma detectOpticalTargets_mem_valid (sq : ℚ → ℚ) (st : TargetDetector)
    (data : List (List ℚ)) (e : ℚ) (t : Target)
    (ht : t ∈ (detectOpticalTargets sq st data e).1) :
    isValidTarget st.noise_threshold t = true := by
  rw [detectOpticalTargets] at ht
  split_ifs at ht with h
  · simp at ht
  · rcases mem_foldl_detectStep _ data _ t ht with h1 | ⟨r, t0, n, hc, rfl⟩
    · simp at h1
    · rw [isValidTarget_id_update]
      exact opticalCandidate_valid sq _ r t0 hc

/-- C1 (corrected).  The validity predicate shared by the extractors and the
noise filter accepts a candidate exactly when its confidence is strictly
above the noise threshold and its size is strictly above 0.1; it inspects
neither the velocity nor the coordinates.  The filter keeps, in order,
exactly the valid candidates, and every target an extractor emits already
passed the predicate before id assignment. -/
theorem c1_validity_amended (sq : ℚ → ℚ) (st : TargetDetector)
    (data : List (List ℚ)) (e noise : ℚ) (ts : List Target) (t : Target) :
    (t ∈ filterNoise noise ts ↔ t ∈ ts ∧ isValidTarget noise t = true)
    ∧ (t ∈ (detectRadarTargets sq st data e).1 →
        isValidTarget st.noise_threshold t = true)
    ∧ (t ∈ (detectThermalTargets sq st data e).1 →
        isValidTarget st.noise_threshold t = true)
    ∧ (t ∈ (detectOpticalTargets sq st data e).1 →
        isValidTarget st.noise_threshold t = true) := by
  refine ⟨List.mem_filter, ?_, ?_, ?_⟩
  · exact detectRadarTargets_mem_valid sq st data e t
  · exact detectThermalTargets_mem_valid sq st data e t
  · exact detectOpticalTargets_mem_valid sq st data e t

/-- C1 counterexample.  tTinySize has confidence 0.9 above the noise
threshold 0.3, non-negative velocity, and (trivially finite) rational
coordinates, so the claimed predicate accepts it; the implemented predicate
rejects it through the size check and the noise filter drops it.
Conversely tNegVel has negative velocity, which the claimed predicate
rejects, yet the implemented predicate accepts it. -/
theorem c1_counterexample :
    isValidTarget (3 / 10) tTinySize = false
    ∧ (3 / 10 : ℚ) < tTinySize.confidence
    ∧ 0 ≤ tTinySize.velocity
    ∧ filterNoise (3 / 10) [tTinySize] = []
    ∧ isValidTarget (3 / 10) tNegVel = true
    ∧ tNegVel.velocity < 0 := by
  refine ⟨?_, ?_, ?_, ?_, ?_, ?_⟩ <;> with_unfolding_all decide

/-- C1 witness: the concrete radar output of detDefault on the reading
(0,0,0,0.9) satisfies the implemented validity predicate. -/
theorem c1_witness :
    isValidTarget detDefault.noise_threshold tRadarDet = true :=
  (c1_validity_amended ratSqrt detDefault [[0, 0, 0, 9 / 10]] 1 (3 / 10) [] tRadarDet).2.1
    (by with_unfolding_all decide)

/-- C6 (corrected).  In the compiled translation unit both threshold setters
store any value unconditionally: there is no range validation, and each
setter changes only its own field. -/
theorem c6_setters_amended (st : TargetDetector) (v : ℚ) :
    getNoiseThreshold (setNoiseThreshold st v) = v
    ∧ getFusionThreshold (setNoiseThreshold st v) = getFusionThreshold st
    ∧ getFusionThreshold (setFusionThreshold st v) = v
    ∧ getNoiseThreshold (setFusionThreshold st v) = getNoiseThreshold st :=
  ⟨rfl, rfl, rfl, rfl⟩

/-- C6 counterexample.  Setting the noise threshold to 5 (outside the
claimed accepted range, which ends at 1) replaces the configured 0.3 rather
than leaving it in place; likewise a fusion threshold of 200 (outside the
claimed open interval ending at 100) is stored. -/
theorem c6_counterexample :
    getNoiseThreshold (setNoiseThreshold detDefault 5) = 5
    ∧ ¬ (5 : ℚ) ≤ 1
    ∧ getNoiseThreshold detDefault = 3 / 10
    ∧ getFusionThreshold (setFusionThreshold detDefault 200) = 200
    ∧ ¬ (200 : ℚ) < 100
    ∧ getFusionThreshold detDefault = 5 := by
  refine ⟨?_, ?_, ?_, ?_, ?_, ?_⟩ <;> with_unfolding_all decide

/-- C7 (confirmed).  The threat function is exactly the claimed cascade:
CRITICAL when velocity exceeds 100 or confidence exceeds 0.9, otherwise HIGH
when velocity exceeds 50 or confidence exceeds 0.7, otherwise MEDIUM when
velocity exceeds 20 or confidence exceeds 0.5, otherwise LOW. -/
theorem c7_threat_function (t : Target) :
    (calculateThreatLevel t = .CRITICAL ↔
      ((100 : ℚ) < t.velocity ∨ (0.9 : ℚ) < t.confidence))
    ∧ (calculateThreatLevel t = .HIGH ↔
      (¬ ((100 : ℚ) < t.velocity ∨ (0.9 : ℚ) < t.confidence)
        ∧ ((50 : ℚ) < t.velocity ∨ (0.7 : ℚ) < t.confidence)))
    ∧ (calculateThreatLevel t = .MEDIUM ↔
      (¬ ((100 : ℚ) < t.velocity ∨ (0.9 : ℚ) < t.confidence)
        ∧ ¬ ((50 : ℚ) < t.velocity ∨ (0.7 : ℚ) < t.confidence)
        ∧ ((20 : ℚ) < t.velocity ∨ (0.5 : ℚ) < t.confidence)))
    ∧ (calculateThreatLevel t = .LOW ↔
      (¬ ((100 : ℚ) < t.velocity ∨ (0.9 : ℚ) < t.confidence)
        ∧ ¬ ((50 : ℚ) < t.velocity ∨ (0.7 : ℚ) < t.confidence)
        ∧ ¬ ((20 : ℚ) < t.velocity ∨ (0.5 : ℚ) < t.confidence))) := by
  unfold calculateThreatLevel
  split_ifs with h1 h2 h3 <;> simp_all

/-- C9 (corrected).  A detect call on an empty batch takes the early-return
path: it yields an empty target sequence and leaves the detector state,
the per-call metrics record included, exactly as it was; only a freshly
constructed detector therefore shows the zeroed metrics record. -/
theorem c9_empty_batch_amended (sq : ℚ → ℚ) (st : TargetDetector)
    (e fusion_thresh noise_thresh : ℚ) :
    detectRadarTargets sq st [] e = ([], st)
    ∧ detectThermalTargets sq st [] e = ([], st)
    ∧ detectOpticalTargets sq st [] e = ([], st)
    ∧ (initDetector fusion_thresh noise_thresh).last_metrics = ⟨0, 0, 0, 0, 0⟩ := by
  refine ⟨?_, ?_, ?_, rfl⟩ <;>
    simp [detectRadarTargets, detectThermalTargets, detectOpticalTargets]

/-- C9 counterexample.  After a successful radar call that produced one
target, a radar call on the empty batch returns the empty sequence but the
metrics still read the previous call (targets_detected 1, average
confidence 1), not the claimed zeroed record. -/
theorem c9_counterexample :
    (detectRadarTargets ratSqrt
        (detectRadarTargets ratSqrt detDefault [[0, 0, 0, 9 / 10]] 1).2 [] 1).1 = []
    ∧ (detectRadarTargets ratSqrt
        (detectRadarTargets ratSqrt detDefault [[0, 0, 0, 9 / 10]] 1).2 [] 1).2.last_metrics.targets_detected = 1
    ∧ (detectRadarTargets ratSqrt
        (detectRadarTargets ratSqrt detDefault [[0, 0, 0, 9 / 10]] 1).2 [] 1).2.last_metrics.average_confidence = 1 := by
  refine ⟨?_, ?_, ?_⟩ <;> with_unfolding_all decide

/-- C10 (confirmed).  Setting a sensor status to anything other than ACTIVE
makes the detect call of that modality return the empty sequence whatever
the readings are, while the target sequences of the other two modalities
are unchanged by the status write. -/
theorem c10_sensor_status (sq : ℚ → ℚ) (st : TargetDetector)
    (data : List (List ℚ)) (e : ℚ) (s : SensorStatus) (hs : s ≠ .ACTIVE) :
    (detectRadarTargets sq (setSensorStatus st .RADAR s) data e).1 = []
    ∧ (detectThermalTargets sq (setSensorStatus st .THERMAL s) data e).1 = []
    ∧ (detectOpticalTargets sq (setSensorStatus st .OPTICAL s) data e).1 = []
    ∧ (detectThermalTargets sq (setSensorStatus st .RADAR s) data e).1
        = (detectThermalTargets sq st data e).1
    ∧ (detectOpticalTargets sq (setSensorStatus st .RADAR s) data e).1
        = (detectOpticalTargets sq st data e).1
    ∧ (detectRadarTargets sq (setSensorStatus st .THERMAL s) data e).1
        = (detectRadarTargets sq st data e).1
    ∧ (detectOpticalTargets sq (setSensorStatus st .THERMAL s) data e).1
        = (detectOpticalTargets sq st data e).1
    ∧ (detectRadarTargets sq (setSensorStatus st .OPTICAL s) data e).1
        = (detectRadarTargets sq st data e).1
    ∧ (detectThermalTargets sq (setSensorStatus st .OPTICAL s) data e).1
        = (detectThermalTargets sq st data e).1 := by
  refine ⟨?_, ?_, ?_, ?_, ?_, ?_, ?_, ?_, ?_⟩
  · simp [detectRadarTargets, setSensorStatus, hs]
  · simp [detectThermalTargets, setSensorStatus, hs]
  · simp [detectOpticalTargets, setSensorStatus, hs]
  all_goals simp only [detectRadarTargets, detectThermalTargets,
    detectOpticalTargets, setSensorStatus]
  all_goals split <;> rfl

/-- C10 witness at a concrete inactive radar sensor and a nonempty batch. -/
theorem c10_witness :
    (detectRadarTargets ratSqrt (setSensorStatus detDefault .RADAR .INACTIVE)
      [[1, 2, 3, 4]] 1).1 = [] :=
  (c10_sensor_status ratSqrt detDefault [[1, 2, 3, 4]] 1 .INACTIVE
    (by with_unfolding_all decide)).1

lemma lookupHistory_insert_ne (hist : List (Int × Target)) (k : Int) (v : Target)
    (k2 : Int) (hne : k2 ≠ k) :
    lookupHistory (insertHistory hist k v) k2 = lookupHistory hist k2 := by
  induction hist with
  | nil => simp [insertHistory, lookupHistory, Ne.symm hne]
  | cons p rest ih =>
    obtain ⟨k0, v0⟩ := p
    by_cases hk : k0 = k
    · subst hk
      simp only [insertHistory, if_pos rfl, lookupHistory]
      rw [if_neg (fun h => hne h.symm), if_neg (fun h => hne h.symm)]
    · simp only [insertHistory, if_neg hk, lookupHistory]
      by_cases hk2 : k0 = k2
      · rw [if_pos hk2, if_pos hk2]
      · rw [if_neg hk2, if_neg hk2, ih]

lemma lookupHistory_insert_self (hist : List (Int × Target)) (k : Int) (v : Target) :
    lookupHistory (insertHistory hist k v) k = some v := by
  induction hist with
  | nil => simp [insertHistory, lookupHistory]
  | cons p rest ih =>
    obtain ⟨k0, v0⟩ := p
    by_cases hk : k0 = k
    · subst hk
      simp [insertHistory, lookupHistory]
    · simp only [insertHistory, if_neg hk, lookupHistory, ih]

lemma lookupHistory_insert_isSome (hist : List (Int × Target)) (k : Int)
    (v : Target) (k2 : Int) (h : (lookupHistory hist k2).isSome = true) :
    (lookupHistory (insertHistory hist k v) k2).isSome = true := by
  by_cases hk : k2 = k
  · subst hk
    rw [lookupHistory_insert_self]
    rfl
  · rw [lookupHistory_insert_ne hist k v k2 hk]
    exact h

lemma insertHistory_length_ge (hist : List (Int × Target)) (k : Int) (v : Target) :
    hist.length ≤ (insertHistory hist k v).length := by
  induction hist with
  | nil => simp [insertHistory]
  | cons p rest ih =>
    obtain ⟨k0, v0⟩ := p
    by_cases hk : k0 = k
    · simp [insertHistory, hk]
    · simp only [insertHistory, if_neg hk, List.length_cons]
      omega

lemma insertHistory_length_fresh (hist : List (Int × Target)) (k : Int)
    (v : Target) (hf : lookupHistory hist k = none) :
    (insertHistory hist k v).length = hist.length + 1 := by
  induction hist with
  | nil => rfl
  | cons p rest ih =>
    obtain ⟨k0, v0⟩ := p
    rw [lookupHistory] at hf
    by_cases hk : k0 = k
    · rw [if_pos hk] at hf
      exact Option.noConfusion hf
    · rw [if_neg hk] at hf
      simp only [insertHistory, if_neg hk, List.length_cons, ih hf]

lemma staleAgainst_insert_ne (hist : List (Int × Target)) (k : Int) (v : Target)
    (t : Target) (hne : t.id ≠ k) :
    staleAgainst (insertHistory hist k v) t = staleAgainst hist t := by
  unfold staleAgainst
  rw [lookupHistory_insert_ne hist k v t.id hne]

lemma trackOne_of_stale (sq : ℚ → ℚ) (hist : List (Int × Target)) (t : Target)
    (hst : staleAgainst hist t = true) : trackOne sq hist t = t := by
  unfold staleAgainst at hst
  cases hl : lookupHistory hist t.id with
  | none => simp [trackOne, hl]
  | some old =>
    rw [hl] at hst
    have hle : t.detection_time - old.detection_time ≤ 0 := of_decide_eq_true hst
    simp [trackOne, hl, not_lt.mpr hle]

lemma trackOne_id (sq : ℚ → ℚ) (hist : List (Int × Target)) (t : Target) :
    (trackOne sq hist t).id = t.id := by
  cases hl : lookupHistory hist t.id with
  | none => simp [trackOne, hl]
  | some old =>
    by_cases hdt : 0 < t.detection_time - old.detection_time
    · simp [trackOne, hl, hdt]
    · simp [trackOne, hl, hdt]

lemma mem_map_of_ne (rest : List Target) (t : Target) (hnm : t.id ∉ rest.map Target.id) :
    ∀ t2 ∈ rest, t2.id ≠ t.id := by
  intro t2 h2 he
  exact hnm (he ▸ List.mem_map_of_mem Target.id h2)

lemma trackGo_velocity (sq : ℚ → ℚ) (now : ℚ) (ts : List Target) :
    ∀ hist, (ts.map Target.id).Nodup →
    (∀ t ∈ ts, staleAgainst hist t = true) →
    (trackGo sq now hist ts).1.map Target.velocity = ts.map Target.velocity := by
  induction ts with
  | nil => intro hist _ _; rfl
  | cons t rest ih =>
    intro hist hnd hstale
    rw [List.map_cons] at hnd
    have hnm : t.id ∉ rest.map Target.id := (List.nodup_cons.mp hnd).1
    have hndr : (rest.map Target.id).Nodup := (List.nodup_cons.mp hnd).2
    have ht1 : trackOne sq hist t = t :=
      trackOne_of_stale sq hist t (hstale t (List.mem_cons_self t rest))
    simp only [trackGo, ht1]
    rw [List.map_cons, List.map_cons]
    show t.velocity :: _ = t.velocity :: _
    congr 1
    apply ih
    · exact hndr
    · intro t2 h2
      rw [staleAgainst_insert_ne]
      · exact hstale t2 (List.mem_cons_of_mem t h2)
      · exact mem_map_of_ne rest t hnm t2 h2

lemma trackGo_hist_length (sq : ℚ → ℚ) (now : ℚ) (ts : List Target) :
    ∀ hist, (∀ t ∈ ts, lookupHistory hist t.id = none) →
    (ts.map Target.id).Nodup →
    (trackGo sq now hist ts).2.length = hist.length + ts.length := by
  induction ts with
  | nil => intro hist _ _; rfl
  | cons t rest ih =>
    intro hist hfresh hnd
    rw [List.map_cons] at hnd
    have hnm : t.id ∉ rest.map Target.id := (List.nodup_cons.mp hnd).1
    have hndr : (rest.map Target.id).Nodup := (List.nodup_cons.mp hnd).2
    simp only [trackGo]
    have hid : ({ trackOne sq hist t with detection_time := now } : Target).id = t.id := by
      rw [show ({ trackOne sq hist t with detection_time := now } : Target).id
          = (trackOne sq hist t).id from rfl, trackOne_id]
    rw [ih _ ?_ hndr]
    · rw [hid, insertHistory_length_fresh hist t.id _
        (hfresh t (List.mem_cons_self t rest)), List.length_cons]
      omega
    · intro t2 h2
      rw [hid, lookupHistory_insert_ne hist t.id _ t2.id
        (mem_map_of_ne rest t hnm t2 h2)]
      exact hfresh t2 (List.mem_cons_of_mem t h2)

lemma trackGo_keeps (sq : ℚ → ℚ) (now : ℚ) (ts : List Target) :
    ∀ hist k, (lookupHistory hist k).isSome = true →
    (lookupHistory (trackGo sq now hist ts).2 k).isSome = true := by
  induction ts with
  | nil => intro hist k h; exact h
  | cons t rest ih =>
    intro hist k h
    simp only [trackGo]
    exact ih _ k (lookupHistory_insert_isSome hist _ _ k h)

lemma trackGo_adds (sq : ℚ → ℚ) (now : ℚ) (ts : List Target) :
    ∀ hist, ∀ t ∈ ts,
    (lookupHistory (trackGo sq now hist ts).2 t.id).isSome = true := by
  induction ts with
  | nil => intro hist t ht; exact absurd ht (List.not_mem_nil t)
  | cons t0 rest ih =>
    intro hist t ht
    simp only [trackGo]
    rcases List.mem_cons.mp ht with rfl | hmem
    · apply trackGo_keeps
      have hid : ({ trackOne sq hist t with detection_time := now } : Target).id = t.id := by
        rw [show ({ trackOne sq hist t with detection_time := now } : Target).id
            = (trackOne sq hist t).id from rfl, trackOne_id]
      rw [hid, lookupHistory_insert_self]
      rfl
    · exact ih _ t hmem

lemma trackGo_length_ge (sq : ℚ → ℚ) (now : ℚ) (ts : List Target) :
    ∀ hist, hist.length ≤ (trackGo sq now hist ts).2.length := by
  induction ts with
  | nil => intro hist; exact Nat.le_refl _
  | cons t rest ih =>
    intro hist
    simp only [trackGo]
    exact Nat.le_trans (insertHistory_length_ge hist _ _) (ih _)

/-- C3 (corrected).  trackTargets never reads its dt_seconds parameter: the
elapsed time it uses is the difference of detection timestamps between the
current target and its stored history snapshot.  Whenever every tracked
target is stale against the history table (its id absent, or its timestamp
not ahead of the snapshot), every velocity is left unchanged, for every
value of the dt_seconds parameter, positive or not. -/
theorem c3_track_amended (sq : ℚ → ℚ) (st : TargetDetector) (ts : List Target)
    (time_delta now : ℚ) (h1 : (ts.map Target.id).Nodup)
    (h2 : ∀ t ∈ ts, staleAgainst st.target_history t = true) :
    (trackTargets sq st ts time_delta now).1.map Target.velocity
      = ts.map Target.velocity := by
  unfold trackTargets
  by_cases h : ts = []
  · subst h; rfl
  · rw [if_neg h]
    exact trackGo_velocity sq now ts st.target_history h1 h2

/-- C3 counterexample.  The call passes dt_seconds = 0, which is not
positive, yet the velocity of the tracked target changes from 7 to 5: the
body ignores the parameter and divides by the timestamp difference 1 - 0
taken from the history snapshot. -/
theorem c3_counterexample :
    (trackTargets ratSqrt detWithHist [curObs] 0 2).1.map Target.velocity = [5]
    ∧ curObs.velocity = 7
    ∧ ¬ (0 : ℚ) > 0 := by
  refine ⟨?_, ?_, ?_⟩ <;> with_unfolding_all decide

/-- C3 witness: a stale observation keeps its velocity 7 even though the
dt_seconds argument is the positive 5. -/
theorem c3_witness :
    (trackTargets ratSqrt detWithHist [curObsStale] 5 9).1.map Target.velocity
      = [curObsStale].map Target.velocity :=
  c3_track_amended ratSqrt detWithHist [curObsStale] 5 9
    (by with_unfolding_all decide) (by with_unfolding_all decide)

/-- C4 (corrected).  The trackTargets of the compiled translation unit never
evicts: every id present in the history table before the call is still
present afterwards, every tracked id is present afterwards, and the table
size never shrinks.  In particular no bulk clear at the 1000-entry capacity
exists, and the table can exceed 1000 entries. -/
theorem c4_history_amended (sq : ℚ → ℚ) (st : TargetDetector) (ts : List Target)
    (time_delta now : ℚ) :
    (∀ k, (lookupHistory st.target_history k).isSome = true →
      (lookupHistory (trackTargets sq st ts time_delta now).2.target_history k).isSome = true)
    ∧ (∀ t ∈ ts,
      (lookupHistory (trackTargets sq st ts time_delta now).2.target_history t.id).isSome = true)
    ∧ st.target_history.length
        ≤ (trackTargets sq st ts time_delta now).2.target_history.length := by
  unfold trackTargets
  by_cases h : ts = []
  · subst h
    refine ⟨fun k hk => hk, ?_, Nat.le_refl _⟩
    intro t ht
    exact absurd ht (List.not_mem_nil t)
  · rw [if_neg h]
    exact ⟨fun k hk => trackGo_keeps sq now ts st.target_history k hk,
      fun t ht => trackGo_adds sq now ts st.target_history t ht,
      trackGo_length_ge sq now ts st.target_history⟩

/-- C4 counterexample.  One track call over 1001 fresh, pairwise distinct
ids grows the history table to 1001 entries and no clearing happens, so
after this call the table holds more than the claimed 1000-entry bound. -/
theorem c4_counterexample :
    1000 < (trackTargets ratSqrt detDefault (mkManyTargets 1001) (1 / 10) 0).2.target_history.length := by
  have hlen : (mkManyTargets 1001).length = 1001 := by
    unfold mkManyTargets
    rw [List.length_map, List.length_range]
  have hne : mkManyTargets 1001 ≠ [] := by
    intro h
    rw [h] at hlen
    simp at hlen
  have key : (trackTargets ratSqrt detDefault (mkManyTargets 1001) (1 / 10) 0).2.target_history
      = (trackGo ratSqrt 0 detDefault.target_history (mkManyTargets 1001)).2 := by
    unfold trackTargets
    rw [if_neg hne]
  have hnd : ((mkManyTargets 1001).map Target.id).Nodup := by
    unfold mkManyTargets
    rw [List.map_map]
    refine List.Nodup.map ?_ (List.nodup_range 1001)
    intro a b hab
    have hab2 : ((a : Int)) = (b : Int) := hab
    exact_mod_cast hab2
  have hfresh : ∀ t ∈ mkManyTargets 1001,
      lookupHistory detDefault.target_history t.id = none := fun t _ => rfl
  rw [key, trackGo_hist_length ratSqrt 0 (mkManyTargets 1001)
    detDefault.target_history hfresh hnd, hlen]
  omega

/-- C4 witness: after tracking the concrete observation of id 1, the id is
still present in the history table. -/
theorem c4_witness :
    (lookupHistory (trackTargets ratSqrt detWithHist [curObs] (1 / 10) 2).2.target_history
      1).isSome = true :=
  (c4_history_amended ratSqrt detWithHist [curObs] (1 / 10) 2).2.1 curObs
    (by with_unfolding_all decide)

lemma threatNum_inj (a b : ThreatLevel) (h : threatNum a = threatNum b) : a = b := by
  cases a <;> cases b <;> revert h <;> decide

lemma priorityLe_iff (a b : Target) : priorityLe a b = true ↔
    (threatNum b.threat_level < threatNum a.threat_level
      ∨ (b.threat_level = a.threat_level ∧ b.confidence ≤ a.confidence)) := by
  unfold priorityLe priorityComp
  by_cases hq : b.threat_level = a.threat_level
  · rw [if_neg (not_not_intro hq)]
    simp [Bool.not_eq_true', decide_eq_false_iff_not, not_lt, hq]
  · rw [if_pos hq]
    simp only [Bool.not_eq_true', decide_eq_false_iff_not, not_lt]
    constructor
    · intro hle
      rcases Nat.lt_or_ge (threatNum b.threat_level) (threatNum a.threat_level) with h | h
      · exact Or.inl h
      · exact absurd (threatNum_inj _ _ (Nat.le_antisymm hle h)) hq
    · rintro (h | ⟨h, _⟩)
      · exact Nat.le_of_lt h
      · exact absurd h hq

lemma priorityLe_dest (a b : Target) (h : priorityLe a b = true) :
    threatNum b.threat_level ≤ threatNum a.threat_level
    ∧ (a.threat_level = b.threat_level → b.confidence ≤ a.confidence) := by
  rw [priorityLe_iff] at h
  rcases h with h | ⟨h, hc⟩
  · refine ⟨Nat.le_of_lt h, fun he => ?_⟩
    rw [he] at h
    exact absurd h (Nat.lt_irrefl _)
  · rw [h]
    exact ⟨Nat.le_refl _, fun _ => hc⟩

lemma priorityLe_trans (a b c : Target) (h1 : priorityLe a b = true)
    (h2 : priorityLe b c = true) : priorityLe a c = true := by
  rw [priorityLe_iff] at h1 h2 ⊢
  rcases h1 with h1 | ⟨h1, h1c⟩ <;> rcases h2 with h2 | ⟨h2, h2c⟩
  · exact Or.inl (Nat.lt_trans h2 h1)
  · rw [h2]
    exact Or.inl h1
  · rw [h1] at h2
    exact Or.inl h2
  · exact Or.inr ⟨h2.trans h1, le_trans h2c h1c⟩

lemma priorityLe_total (a b : Target) :
    (priorityLe a b || priorityLe b a) = true := by
  rw [Bool.or_eq_true, priorityLe_iff, priorityLe_iff]
  rcases Nat.lt_trichotomy (threatNum a.threat_level) (threatNum b.threat_level)
    with h | h | h
  · exact Or.inr (Or.inl h)
  · have he : a.threat_level = b.threat_level := threatNum_inj _ _ h
    rcases le_total a.confidence b.confidence with hc | hc
    · exact Or.inr (Or.inr ⟨he, hc⟩)
    · exact Or.inl (Or.inr ⟨he.symm, hc⟩)
  · exact Or.inl (Or.inl h)

/-- C5 (corrected).  prioritizeTargets of the compiled translation unit
only sorts (std::sort over the threat-then-confidence comparator, modelled
by merge sort over the induced total preorder): the output is a permutation
of the input in which, for all positions i before j, the threat level at i
is at least the threat level at j and, at equal threat levels, the
confidence at i is at least the confidence at j.  No threat recomputation
follows the sort, so the derived-attribute invariant is not restored. -/
theorem c5_prioritize_amended (ts : List Target) :
    (prioritizeTargets ts).Perm ts
    ∧ (prioritizeTargets ts).Pairwise (fun a b =>
        threatNum b.threat_level ≤ threatNum a.threat_level
        ∧ (a.threat_level = b.threat_level → b.confidence ≤ a.confidence)) := by
  constructor
  · exact List.mergeSort_perm ts priorityLe
  · have hs := List.sorted_mergeSort
      (fun a b c h1 h2 => priorityLe_trans a b c h1 h2)
      (fun a b => priorityLe_total a b) ts
    exact hs.imp (fun hab => priorityLe_dest _ _ hab)

/-- C5 counterexample.  A single stored target whose threat level LOW
disagrees with the threat function value CRITICAL at its velocity 200 passes
through prioritizeTargets unchanged: no recomputation happens after the
sort, so the derived-attribute invariant fails on the output. -/
theorem c5_counterexample :
    prioritizeTargets [tStaleThreat] = [tStaleThreat]
    ∧ tStaleThreat.threat_level = .LOW
    ∧ calculateThreatLevel tStaleThreat = .CRITICAL
    ∧ (100 : ℚ) < tStaleThreat.velocity := by
  refine ⟨?_, ?_, ?_, ?_⟩ <;> with_unfolding_all decide

/-- C5 witness: a concrete two-element sort is a permutation of its input. -/
theorem c5_witness :
    (prioritizeTargets [tPrioB, tPrioA]).Perm [tPrioB, tPrioA] :=
  (c5_prioritize_amended [tPrioB, tPrioA]).1

lemma modifyIdx_length (f : Target → Target) :
    ∀ (i : Nat) (l : List Target), (modifyIdx f i l).length = l.length := by
  intro i l
  induction l generalizing i with
  | nil => cases i <;> rfl
  | cons t rest ih =>
    cases i with
    | zero => rfl
    | succ n => simp only [modifyIdx, List.length_cons, ih n]

lemma mem_modifyIdx (f : Target → Target) :
    ∀ (i : Nat) (l : List Target) (t : Target), t ∈ modifyIdx f i l →
      t ∈ l ∨ ∃ a, a ∈ l ∧ t = f a := by
  intro i l
  induction l generalizing i with
  | nil =>
    intro t ht
    cases i <;> exact absurd ht (List.not_mem_nil t)
  | cons b rest ih =>
    intro t ht
    cases i with
    | zero =>
      rcases List.mem_cons.mp ht with rfl | h
      · exact Or.inr ⟨b, List.mem_cons_self b rest, rfl⟩
      · exact Or.inl (List.mem_cons_of_mem b h)
    | succ n =>
      rcases List.mem_cons.mp ht with rfl | h
      · exact Or.inl (List.mem_cons_self t rest)
      · rcases ih n t h with h1 | ⟨a, ha, rfl⟩
        · exact Or.inl (List.mem_cons_of_mem b h1)
        · exact Or.inr ⟨a, List.mem_cons_of_mem b ha, rfl⟩

lemma fuseThermalStep_merge (sq : ℚ → ℚ) (thr noise : ℚ) (fused : List Target)
    (grid : SpatialHash) (th : Target) (i : Nat)
    (hv : isValidTarget noise th = true)
    (hfind : findThermalMergeIdx sq thr fused
      (scanCandidates grid (getGridHash thr th.x th.y th.z)) th = some i) :
    fuseThermalStep sq thr noise (fused, grid) th
      = (modifyIdx (fun r => mergeThermal r th) i fused, grid)
    ∧ ∃ r, fused[i]? = some r ∧ r.type = .RADAR
        ∧ calculateDistance sq r th < thr := by
  constructor
  · unfold fuseThermalStep
    rw [if_pos hv]
    simp only [hfind]
  · have hp := List.find?_some hfind
    cases hfi : fused[i]? with
    | none =>
      simp only [hfi] at hp
      exact Bool.noConfusion hp
    | some r =>
      simp only [hfi, Bool.and_eq_true, decide_eq_true_eq] at hp
      exact ⟨r, rfl, hp.1, hp.2⟩

lemma fuseThermalStep_standalone (sq : ℚ → ℚ) (thr noise : ℚ)
    (fused : List Target) (grid : SpatialHash) (th : Target)
    (hv : isValidTarget noise th = true)
    (hfind : findThermalMergeIdx sq thr fused
      (scanCandidates grid (getGridHash thr th.x th.y th.z)) th = none) :
    fuseThermalStep sq thr noise (fused, grid) th
      = (fused ++ [th], gridInsert grid (getGridHash thr th.x th.y th.z) fused.length) := by
  unfold fuseThermalStep
  rw [if_pos hv]
  simp only [hfind]

lemma fuseThermalStep_invalid (sq : ℚ → ℚ) (thr noise : ℚ)
    (acc : List Target × SpatialHash) (th : Target)
    (hv : isValidTarget noise th = false) :
    fuseThermalStep sq thr noise acc th = acc := by
  unfold fuseThermalStep
  rw [if_neg (by simp [hv])]

lemma fuseOpticalStep_merge (sq : ℚ → ℚ) (thr noise : ℚ) (fused : List Target)
    (grid : SpatialHash) (op : Target) (i : Nat)
    (hv : isValidTarget noise op = true)
    (hfind : findOpticalMergeIdx sq thr fused
      (scanCandidates grid (getGridHash thr op.x op.y op.z)) op = some i) :
    fuseOpticalStep sq thr noise (fused, grid) op
      = (modifyIdx (fun t => mergeOptical t op) i fused, grid)
    ∧ ∃ r, fused[i]? = some r ∧ calculateDistance sq r op < thr := by
  constructor
  · unfold fuseOpticalStep
    rw [if_pos hv]
    simp only [hfind]
  · have hp := List.find?_some hfind
    cases hfi : fused[i]? with
    | none =>
      simp only [hfi] at hp
      exact Bool.noConfusion hp
    | some r =>
      simp only [hfi, decide_eq_true_eq] at hp
      exact ⟨r, rfl, hp⟩

lemma fuseOpticalStep_standalone (sq : ℚ → ℚ) (thr noise : ℚ)
    (fused : List Target) (grid : SpatialHash) (op : Target)
    (hv : isValidTarget noise op = true)
    (hfind : findOpticalMergeIdx sq thr fused
      (scanCandidates grid (getGridHash thr op.x op.y op.z)) op = none) :
    fuseOpticalStep sq thr noise (fused, grid) op
      = (fused ++ [op], gridInsert grid (getGridHash thr op.x op.y op.z) fused.length) := by
  unfold fuseOpticalStep
  rw [if_pos hv]
  simp only [hfind]

lemma fuseThermalStep_length (sq : ℚ → ℚ) (thr noise : ℚ)
    (acc : List Target × SpatialHash) (th : Target) :
    (fuseThermalStep sq thr noise acc th).1.length ≤ acc.1.length + 1 := by
  unfold fuseThermalStep
  split_ifs with hv
  · dsimp only
    split
    · simp only [modifyIdx_length]
      omega
    · simp
  · omega

lemma fuseOpticalStep_length (sq : ℚ → ℚ) (thr noise : ℚ)
    (acc : List Target × SpatialHash) (op : Target) :
    (fuseOpticalStep sq thr noise acc op).1.length ≤ acc.1.length + 1 := by
  unfold fuseOpticalStep
  split_ifs with hv
  · dsimp only
    split
    · simp only [modifyIdx_length]
      omega
    · simp
  · omega

lemma foldl_fuseThermalStep_length (sq : ℚ → ℚ) (thr noise : ℚ)
    (T : List Target) : ∀ acc,
    (T.foldl (fuseThermalStep sq thr noise) acc).1.length
      ≤ acc.1.length + T.length := by
  induction T with
  | nil => intro acc; simp
  | cons th rest ih =>
    intro acc
    have h1 := ih (fuseThermalStep sq thr noise acc th)
    have h2 := fuseThermalStep_length sq thr noise acc th
    simp only [List.foldl_cons, List.length_cons]
    omega

lemma foldl_fuseOpticalStep_length (sq : ℚ → ℚ) (thr noise : ℚ)
    (O : List Target) : ∀ acc,
    (O.foldl (fuseOpticalStep sq thr noise) acc).1.length
      ≤ acc.1.length + O.length := by
  induction O with
  | nil => intro acc; simp
  | cons op rest ih =>
    intro acc
    have h1 := ih (fuseOpticalStep sq thr noise acc op)
    have h2 := fuseOpticalStep_length sq thr noise acc op
    simp only [List.foldl_cons, List.length_cons]
    omega

lemma foldl_fuseRadarStep_length (noise thr : ℚ) (R : List Target) : ∀ acc,
    (R.foldl (fuseRadarStep noise thr) acc).1.length
      ≤ acc.1.length + R.length := by
  induction R with
  | nil => intro acc; simp
  | cons t rest ih =>
    intro acc
    have h1 := ih (fuseRadarStep noise thr acc t)
    have h2 : (fuseRadarStep noise thr acc t).1.length ≤ acc.1.length + 1 := by
      unfold fuseRadarStep
      split_ifs <;> simp
    simp only [List.foldl_cons, List.length_cons]
    omega

lemma fuseSensors_length (sq : ℚ → ℚ) (st : TargetDetector)
    (R T O : List Target) :
    (fuseSensors sq st R T O).length ≤ R.length + T.length + O.length := by
  unfold fuseSensors fuseRadarPhase
  dsimp only
  have h1 := foldl_fuseRadarStep_length st.noise_threshold st.fusion_threshold R
    ([], [])
  have h2 := foldl_fuseThermalStep_length sq st.fusion_threshold
    st.noise_threshold T (R.foldl (fuseRadarStep st.noise_threshold st.fusion_threshold) ([], []))
  have h3 := foldl_fuseOpticalStep_length sq st.fusion_threshold
    st.noise_threshold O (T.foldl (fuseThermalStep sq st.fusion_threshold st.noise_threshold)
      (R.foldl (fuseRadarStep st.noise_threshold st.fusion_threshold) ([], [])))
  simp only [List.length_nil] at h1
  omega

/-- C2 (corrected).  The fused output never exceeds the combined input
sizes, and the per-candidate behaviour is: a valid thermal candidate whose
neighbourhood scan finds a first index is merged into exactly that one
entry, which is necessarily radar-typed and within the fusion threshold of
the candidate — a close-by member of any other type (thermal or already
fused) is not a merge partner, so the candidate is then appended as a
standalone spatial duplicate; a valid optical candidate merges into the
first scanned entry of any type within the threshold, else is appended. -/
theorem c2_fusion_amended (sq : ℚ → ℚ) (st : TargetDetector)
    (R T O : List Target) (thr noise : ℚ) (fused : List Target)
    (grid : SpatialHash) (th op : Target) :
    (fuseSensors sq st R T O).length ≤ R.length + T.length + O.length
    ∧ (isValidTarget noise th = true →
        (∀ i, findThermalMergeIdx sq thr fused
            (scanCandidates grid (getGridHash thr th.x th.y th.z)) th = some i →
          fuseThermalStep sq thr noise (fused, grid) th
            = (modifyIdx (fun r => mergeThermal r th) i fused, grid)
          ∧ ∃ r, fused[i]? = some r ∧ r.type = .RADAR
              ∧ calculateDistance sq r th < thr)
        ∧ (findThermalMergeIdx sq thr fused
            (scanCandidates grid (getGridHash thr th.x th.y th.z)) th = none →
          fuseThermalStep sq thr noise (fused, grid) th
            = (fused ++ [th],
                gridInsert grid (getGridHash thr th.x th.y th.z) fused.length)))
    ∧ (isValidTarget noise op = true →
        (∀ i, findOpticalMergeIdx sq thr fused
            (scanCandidates grid (getGridHash thr op.x op.y op.z)) op = some i →
          fuseOpticalStep sq thr noise (fused, grid) op
            = (modifyIdx (fun t => mergeOptical t op) i fused, grid)
          ∧ ∃ r, fused[i]? = some r ∧ calculateDistance sq r op < thr)
        ∧ (findOpticalMergeIdx sq thr fused
            (scanCandidates grid (getGridHash thr op.x op.y op.z)) op = none →
          fuseOpticalStep sq thr noise (fused, grid) op
            = (fused ++ [op],
                gridInsert grid (getGridHash thr op.x op.y op.z) fused.length)))
    ∧ (isValidTarget noise th = false →
        fuseThermalStep sq thr noise (fused, grid) th = (fused, grid)) := by
  refine ⟨fuseSensors_length sq st R T O, fun hv => ⟨?_, ?_⟩, fun hv => ⟨?_, ?_⟩, ?_⟩
  · intro i hfind
    exact fuseThermalStep_merge sq thr noise fused grid th i hv hfind
  · intro hfind
    exact fuseThermalStep_standalone sq thr noise fused grid th hv hfind
  · intro i hfind
    exact fuseOpticalStep_merge sq thr noise fused grid op i hv hfind
  · intro hfind
    exact fuseOpticalStep_standalone sq thr noise fused grid op hv hfind
  · intro hv
    exact fuseThermalStep_invalid sq thr noise (fused, grid) th hv

/-- C2 counterexample.  Two valid thermal candidates one unit apart (with
the default fusion threshold 5): the first is inserted into the fused set;
the second is strictly within the fusion threshold of that existing member,
yet fuseSensors inserts it as a standalone duplicate instead of merging,
because the thermal merge loop only accepts radar-typed partners. -/
theorem c2_counterexample :
    fuseSensors ratSqrt detDefault [] [thA, thB] [] = [thA, thB]
    ∧ calculateDistance ratSqrt thA thB < detDefault.fusion_threshold
    ∧ isValidTarget detDefault.noise_threshold thB = true
    ∧ thA.type = .THERMAL := by
  refine ⟨?_, ?_, ?_, ?_⟩ <;> with_unfolding_all decide

/-- C2 witness: the concrete thermal merge of Scenario B.  The radar target
rScenB sits in the fused set, the thermal candidate tScenB two units away is
found by the scan, and the step merges it into exactly that radar entry. -/
theorem c2_witness :
    fuseThermalStep ratSqrt 5 (3 / 10)
        ([rScenB], gridInsert [] (getGridHash 5 rScenB.x rScenB.y rScenB.z) 0) tScenB
      = (modifyIdx (fun r => mergeThermal r tScenB) 0 [rScenB],
          gridInsert [] (getGridHash 5 rScenB.x rScenB.y rScenB.z) 0) :=
  (((c2_fusion_amended ratSqrt detDefault [] [] [] 5 (3 / 10) [rScenB]
      (gridInsert [] (getGridHash 5 rScenB.x rScenB.y rScenB.z) 0) tScenB tScenB).2.1
    (by with_unfolding_all decide)).1 0 (by with_unfolding_all decide)).1

lemma radarCandidate_conf (sq : ℚ → ℚ) (noise : ℚ) (r : List ℚ) (t : Target)
    (hn : 0 ≤ noise) (h : radarCandidate sq noise r = some t) : confInUnit t := by
  rcases r with _ | ⟨x, _ | ⟨y, _ | ⟨z, _ | ⟨s, rest⟩⟩⟩⟩ <;>
    simp only [radarCandidate] at h
  · exact Option.noConfusion h
  · exact Option.noConfusion h
  · exact Option.noConfusion h
  · exact Option.noConfusion h
  · split_ifs at h with h1 h2
    rcases Option.some.inj h with rfl
    constructor
    · refine le_min (mul_nonneg ?_ (by norm_num)) (by norm_num)
      exact le_trans hn (le_of_lt h1)
    · exact le_trans (min_le_right _ _) (by norm_num)

lemma thermalCandidate_conf (sq : ℚ → ℚ) (noise : ℚ) (r : List ℚ) (t : Target)
    (h : thermalCandidate sq noise r = some t) : confInUnit t := by
  rcases r with _ | ⟨x, _ | ⟨y, _ | ⟨z, _ | ⟨s, rest⟩⟩⟩⟩ <;>
    simp only [thermalCandidate] at h
  · exact Option.noConfusion h
  · exact Option.noConfusion h
  · exact Option.noConfusion h
  · exact Option.noConfusion h
  · split_ifs at h with h1 h2
    rcases Option.some.inj h with rfl
    constructor
    · refine le_min (div_nonneg (by linarith) (by norm_num)) (by norm_num)
    · exact le_trans (min_le_right _ _) (by norm_num)

lemma opticalCandidate_conf (sq : ℚ → ℚ) (noise : ℚ) (r : List ℚ) (t : Target)
    (h : opticalCandidate sq noise r = some t) : confInUnit t := by
  rcases r with _ | ⟨x, _ | ⟨y, _ | ⟨z, _ | ⟨b, _ | ⟨c, rest⟩⟩⟩⟩⟩ <;>
    simp only [opticalCandidate] at h
  · exact Option.noConfusion h
  · exact Option.noConfusion h
  · exact Option.noConfusion h
  · exact Option.noConfusion h
  · exact Option.noConfusion h
  · split_ifs at h with h1 h2
    rcases Option.some.inj h with rfl
    constructor
    · refine le_min (mul_nonneg (by linarith) (by norm_num)) (by norm_num)
    · exact le_trans (min_le_right _ _) (by norm_num)

lemma confInUnit_id_update (t : Target) (n : Int) (h : confInUnit t) :
    confInUnit { t with id := n } := h

lemma detectRadarTargets_mem_conf (sq : ℚ → ℚ) (st : TargetDetector)
    (data : List (List ℚ)) (e : ℚ) (hn : 0 ≤ st.noise_threshold) (t : Target)
    (ht : t ∈ (detectRadarTargets sq st data e).1) : confInUnit t := by
  rw [detectRadarTargets] at ht
  split_ifs at ht with h
  · simp at ht
  · rcases mem_foldl_detectStep _ data _ t ht with h1 | ⟨r, t0, n, hc, rfl⟩
    · simp at h1
    · exact confInUnit_id_update t0 n (radarCandidate_conf sq _ r t0 hn hc)

lemma detectThermalTargets_mem_conf (sq : ℚ → ℚ) (st : TargetDetector)
    (data : List (List ℚ)) (e : ℚ) (t : Target)
    (ht : t ∈ (detectThermalTargets sq st data e).1) : confInUnit t := by
  rw [detectThermalTargets] at ht
  split_ifs at ht with h
  · simp at ht
  · rcases mem_foldl_detectStep _ data _ t ht with h1 | ⟨r, t0, n, hc, rfl⟩
    · simp at h1
    · exact confInUnit_id_update t0 n (thermalCandidate_conf sq _ r t0 hc)

lemma detectOpticalTargets_mem_conf (sq : ℚ → ℚ) (st : TargetDetector)
    (data : List (List ℚ)) (e : ℚ) (t : Target)
    (ht : t ∈ (detectOpticalTargets sq st data e).1) : confInUnit t := by
  rw [detectOpticalTargets] at ht
  split_ifs at ht with h
  · simp at ht
  · rcases mem_foldl_detectStep _ data _ t ht with h1 | ⟨r, t0, n, hc, rfl⟩
    · simp at h1
    · exact confInUnit_id_update t0 n (opticalCandidate_conf sq _ r t0 hc)

lemma mergeThermal_conf (r th : Target) (hr : confInUnit r) (hth : confInUnit th) :
    confInUnit (mergeThermal r th) := by
  unfold mergeThermal confInUnit
  constructor
  · exact le_min (by norm_num)
      (add_nonneg hr.1 (mul_nonneg hth.1 (by norm_num)))
  · exact le_trans (min_le_left _ _) (by norm_num)

lemma mergeOptical_conf (tgt op : Target) (ht : confInUnit tgt) (hop : confInUnit op) :
    confInUnit (mergeOptical tgt op) := by
  unfold mergeOptical confInUnit
  dsimp only
  split_ifs <;> constructor
  · exact le_min (by norm_num)
      (add_nonneg ht.1 (mul_nonneg hop.1 (by norm_num)))
  · exact le_trans (min_le_left _ _) (by norm_num)
  · exact le_min (by norm_num)
      (add_nonneg ht.1 (mul_nonneg hop.1 (by norm_num)))
  · exact le_trans (min_le_left _ _) (by norm_num)

lemma fuseRadarStep_mem (noise thr : ℚ) (acc : List Target × SpatialHash)
    (t0 t : Target) (ht : t ∈ (fuseRadarStep noise thr acc t0).1) :
    t ∈ acc.1 ∨ t = t0 := by
  unfold fuseRadarStep at ht
  split_ifs at ht with hv
  · rcases List.mem_append.mp ht with h | h
    · exact Or.inl h
    · exact Or.inr (List.mem_singleton.mp h)
  · exact Or.inl ht

lemma foldl_fuseRadarStep_mem (noise thr : ℚ) (R : List Target) :
    ∀ acc t, t ∈ (R.foldl (fuseRadarStep noise thr) acc).1 →
      t ∈ acc.1 ∨ t ∈ R := by
  induction R with
  | nil => intro acc t ht; exact Or.inl ht
  | cons t0 rest ih =>
    intro acc t ht
    rcases ih (fuseRadarStep noise thr acc t0) t ht with h | h
    · rcases fuseRadarStep_mem noise thr acc t0 t h with h1 | rfl
      · exact Or.inl h1
      · exact Or.inr (List.mem_cons_self t rest)
    · exact Or.inr (List.mem_cons_of_mem t0 h)

lemma fuseThermalStep_conf (sq : ℚ → ℚ) (thr noise : ℚ)
    (acc : List Target × SpatialHash) (th : Target)
    (hacc : ∀ t ∈ acc.1, confInUnit t) (hth : confInUnit th) :
    ∀ t ∈ (fuseThermalStep sq thr noise acc th).1, confInUnit t := by
  intro t ht
  unfold fuseThermalStep at ht
  split_ifs at ht with hv
  · dsimp only at ht
    split at ht
    · rcases mem_modifyIdx _ _ acc.1 t ht with h | ⟨a, ha, rfl⟩
      · exact hacc t h
      · exact mergeThermal_conf a th (hacc a ha) hth
    · rcases List.mem_append.mp ht with h | h
      · exact hacc t h
      · rcases List.mem_singleton.mp h with rfl
        exact hth
  · exact hacc t ht

lemma fuseOpticalStep_conf (sq : ℚ → ℚ) (thr noise : ℚ)
    (acc : List Target × SpatialHash) (op : Target)
    (hacc : ∀ t ∈ acc.1, confInUnit t) (hop : confInUnit op) :
    ∀ t ∈ (fuseOpticalStep sq thr noise acc op).1, confInUnit t := by
  intro t ht
  unfold fuseOpticalStep at ht
  split_ifs at ht with hv
  · dsimp only at ht
    split at ht
    · rcases mem_modifyIdx _ _ acc.1 t ht with h | ⟨a, ha, rfl⟩
      · exact hacc t h
      · exact mergeOptical_conf a op (hacc a ha) hop
    · rcases List.mem_append.mp ht with h | h
      · exact hacc t h
      · rcases List.mem_singleton.mp h with rfl
        exact hop
  · exact hacc t ht

lemma foldl_fuseThermalStep_conf (sq : ℚ → ℚ) (thr noise : ℚ) (T : List Target) :
    ∀ acc, (∀ t ∈ acc.1, confInUnit t) → (∀ t ∈ T, confInUnit t) →
    ∀ t ∈ (T.foldl (fuseThermalStep sq thr noise) acc).1, confInUnit t := by
  induction T with
  | nil => intro acc hacc _ t ht; exact hacc t ht
  | cons th rest ih =>
    intro acc hacc hT t ht
    refine ih (fuseThermalStep sq thr noise acc th) ?_ ?_ t ht
    · exact fuseThermalStep_conf sq thr noise acc th hacc
        (hT th (List.mem_cons_self th rest))
    · intro t2 h2
      exact hT t2 (List.mem_cons_of_mem th h2)

lemma foldl_fuseOpticalStep_conf (sq : ℚ → ℚ) (thr noise : ℚ) (O : List Target) :
    ∀ acc, (∀ t ∈ acc.1, confInUnit t) → (∀ t ∈ O, confInUnit t) →
    ∀ t ∈ (O.foldl (fuseOpticalStep sq thr noise) acc).1, confInUnit t := by
  induction O with
  | nil => intro acc hacc _ t ht; exact hacc t ht
  | cons op rest ih =>
    intro acc hacc hO t ht
    refine ih (fuseOpticalStep sq thr noise acc op) ?_ ?_ t ht
    · exact fuseOpticalStep_conf sq thr noise acc op hacc
        (hO op (List.mem_cons_self op rest))
    · intro t2 h2
      exact hO t2 (List.mem_cons_of_mem op h2)

lemma fuseSensors_conf (sq : ℚ → ℚ) (st : TargetDetector) (R T O : List Target)
    (hR : ∀ t ∈ R, confInUnit t) (hT : ∀ t ∈ T, confInUnit t)
    (hO : ∀ t ∈ O, confInUnit t) :
    ∀ t ∈ fuseSensors sq st R T O, confInUnit t := by
  intro t ht
  unfold fuseSensors fuseRadarPhase at ht
  dsimp only at ht
  refine foldl_fuseOpticalStep_conf sq st.fusion_threshold st.noise_threshold O _
    ?_ hO t ht
  refine foldl_fuseThermalStep_conf sq st.fusion_threshold st.noise_threshold T _
    ?_ hT
  intro t2 h2
  rcases foldl_fuseRadarStep_mem st.noise_threshold st.fusion_threshold R _ t2 h2
    with h | h
  · simp at h
  · exact hR t2 h

/-- C8 (confirmed, with the configuration hypothesis that the noise
threshold is non-negative, which holds for the default 0.3 and the whole
documented range).  Every Target any extractor produces has confidence in
the closed unit interval, and fuseSensors maps inputs whose confidences all
lie in the unit interval to an output whose confidences all lie in the unit
interval (the thermal and optical merges cap at 0.9 and 0.95). -/
theorem c8_confidence_in_unit_interval (sq : ℚ → ℚ) (st : TargetDetector)
    (data : List (List ℚ)) (e : ℚ) (R T O : List Target)
    (hn : 0 ≤ st.noise_threshold)
    (hR : ∀ t ∈ R, confInUnit t) (hT : ∀ t ∈ T, confInUnit t)
    (hO : ∀ t ∈ O, confInUnit t) :
    (∀ t ∈ (detectRadarTargets sq st data e).1, confInUnit t)
    ∧ (∀ t ∈ (detectThermalTargets sq st data e).1, confInUnit t)
    ∧ (∀ t ∈ (detectOpticalTargets sq st data e).1, confInUnit t)
    ∧ (∀ t ∈ fuseSensors sq st R T O, confInUnit t) :=
  ⟨fun t ht => detectRadarTargets_mem_conf sq st data e hn t ht,
    fun t ht => detectThermalTargets_mem_conf sq st data e t ht,
    fun t ht => detectOpticalTargets_mem_conf sq st data e t ht,
    fuseSensors_conf sq st R T O hR hT hO⟩

/-- C8 witness: the concrete radar target produced from the reading
(0,0,0,0.9) has confidence inside the unit interval. -/
theorem c8_witness : confInUnit tRadarDet :=
  (c8_confidence_in_unit_interval ratSqrt detDefault [[0, 0, 0, 9 / 10]] 1
      [] [] [] (by with_unfolding_all decide)
      (fun t ht => absurd ht (List.not_mem_nil t))
      (fun t ht => absurd ht (List.not_mem_nil t))
      (fun t ht => absurd ht (List.not_mem_nil t))).1
    tRadarDet (by with_unfolding_all decide)

end SFS
